import Mathlib

/-!
Verification of `check_systemd_services.py`, a Nagios check that lists all
systemd units, classifies each into a problem category, buckets the problems
into CRITICALS and WARNINGS, and prints one verdict line with a matching
exit code.

Shallow embedding conventions: Python strings are Lean `String`s (byte-wise
comparison of the Python strings coincides with character-wise comparison
for the ASCII data involved), the integer `Problem` codes are `Nat`,
functions that may return `None` return `Option`, and a Python exception
that the source does not catch is modelled as `none` at the outcome type
(the interpreter aborts with a traceback and prints no verdict line).
-/

namespace CheckSystemd

-- Enum `Problem` (source lines 27-34): integer severity codes, ordered
-- from more important to less.
namespace Problem

def failed : Nat := 0

def dead : Nat := 1

def not_loaded_but_not_inactive : Nat := 2

def not_loaded_but_not_dead : Nat := 3

end Problem

/-- Embeds `check_service(serv_load, serv_active, serv_sub)` (source lines
93-106): detect problems of a service; falling off the end of the function
returns `None`. -/
def check_service (serv_load serv_active serv_sub : String) : Option Nat :=
  if serv_load = "loaded" then
    if serv_active = "failed" ∨ serv_sub = "failed" then
      some Problem.failed
    else if serv_sub = "dead" then
      some Problem.dead
    else
      none
  else
    if serv_active ≠ "inactive" then
      some Problem.not_loaded_but_not_inactive
    else if serv_sub ≠ "dead" then
      some Problem.not_loaded_but_not_dead
    else
      none

/-- Decision table of spec section 4.1, written from the spec's words, first
matching row winning: used only to compare with `check_service`. -/
def classifierTable (loadState activeState subState : String) : Option Nat :=
  if loadState = "loaded" ∧ (activeState = "failed" ∨ subState = "failed") then
    some Problem.failed
  else if loadState = "loaded" ∧ subState = "dead" then
    some Problem.dead
  else if loadState = "loaded" then
    none
  else if loadState ≠ "loaded" ∧ activeState ≠ "inactive" then
    some Problem.not_loaded_but_not_inactive
  else if loadState ≠ "loaded" ∧ activeState = "inactive" ∧ subState ≠ "dead" then
    some Problem.not_loaded_but_not_dead
  else
    none

/-- C1: the classifier maps every `(loadState, activeState, subState)` triple
exactly as the section 4.1 decision table prescribes; in particular a loaded
unit with active-state `failed` is classified `Failed` regardless of
sub-state, and every string triple yields either one of the four categories
or healthy `none`, never an error. -/
theorem check_service_matches_table (l a s : String) :
    check_service l a s = classifierTable l a s ∧
      (l = "loaded" → a = "failed" → check_service l a s = some Problem.failed) ∧
      (check_service l a s = none ∨
        ∃ p, check_service l a s = some p ∧ p < 4) := by
  refine ⟨?_, ?_, ?_⟩
  · unfold check_service classifierTable
    by_cases hl : l = "loaded" <;> by_cases ha : a = "failed" <;>
      by_cases hs : s = "failed" <;> by_cases hd : s = "dead" <;>
      by_cases hi : a = "inactive" <;> simp_all
  · intro hl ha
    simp [check_service, hl, ha]
  · unfold check_service
    by_cases hl : l = "loaded" <;> by_cases ha : a = "failed" <;>
      by_cases hs : s = "failed" <;> by_cases hd : s = "dead" <;>
      by_cases hi : a = "inactive" <;>
      simp_all [Problem.failed, Problem.dead,
        Problem.not_loaded_but_not_inactive, Problem.not_loaded_but_not_dead]

/-- Witness for C1 at a concrete input: a `loaded/failed/running` unit is
classified `Failed`. -/
theorem check_service_matches_table_witness :
    check_service "loaded" "failed" "running" = some Problem.failed :=
  (check_service_matches_table "loaded" "failed" "running").2.1 rfl rfl

/-- Embeds `problem_names` (source lines 111-115): the dict built from the
integer attributes of `Problem`, each attribute name with underscores
replaced by spaces. A key outside 0-3 would raise `KeyError` in the source;
such a key can never be looked up because `check_service` only produces
these four values, so the total function returns `""` there. -/
def problem_names (v : Nat) : String :=
  if v = Problem.failed then "failed"
  else if v = Problem.dead then "dead"
  else if v = Problem.not_loaded_but_not_inactive then "not loaded but not inactive"
  else if v = Problem.not_loaded_but_not_dead then "not loaded but not dead"
  else ""

/-- Loop of `get_message` (source lines 116-122): `last_problem` starts as
`None`; after an entry is processed it equals that entry's problem, whether
or not the label was printed. -/
def getMessageAux (last_problem : Option Nat) : List (Nat × String) → String
  | [] => ""
  | (problem, service) :: rest =>
    (if last_problem = some problem then "" else problem_names problem ++ ": ")
      ++ service ++ " " ++ getMessageAux (some problem) rest

/-- Embeds `get_message(problems)` (source lines 109-124). -/
def get_message (problems : List (Nat × String)) : String :=
  getMessageAux none problems

/-- Boolean strict lexicographic order on character lists: Python's `<` on
the (ASCII) service-name strings. -/
def strLtB : List Char → List Char → Bool
  | [], [] => false
  | [], _ :: _ => true
  | _ :: _, [] => false
  | a :: as, b :: bs => if a < b then true else if a = b then strLtB as bs else false

/-- Python tuple comparison `(problem, service_name) <= (problem, service_name)`:
lexicographic on the integer component, then on the string component. -/
def pairLE (x y : Nat × String) : Bool :=
  decide (x.1 < y.1) || (decide (x.1 = y.1) && !(strLtB y.2.data x.2.data))

/-- Propositional form of `pairLE`: the order `list.sort()` sorts by. -/
def pairR (x y : Nat × String) : Prop := pairLE x y = true

instance : DecidableRel pairR := fun _ _ => inferInstanceAs (Decidable (_ = true))

/-- Embeds `criticals.sort()` and `warnings.sort()` (source lines 79-80).
Python's `list.sort` puts the `(problem, service_name)` tuples into
non-decreasing tuple order; since that order is antisymmetric (equal rank
means equal tuples) the sorted list is unique, so insertion sort computes
exactly Python's result. -/
def sortPairs (l : List (Nat × String)) : List (Nat × String) :=
  List.insertionSort pairR l

/-- Embeds the bucket choice for one classified unit (source lines 70-77):
`some (true, e)` appends `e` to `criticals`, `some (false, e)` appends `e`
to `warnings`, and `none` appends nothing. -/
def bucketDecision (critical_services : List String) (problem : Option Nat)
    (service_name : String) : Option (Bool × Nat × String) :=
  match problem with
  | none => none
  | some p =>
    if service_name ∈ critical_services then
      if p = Problem.failed then some (true, p, service_name)
      else some (false, p, service_name)
    else if p ≠ Problem.dead then some (false, p, service_name)
    else none

/-- Embeds the loop over `output.splitlines()` (source lines 63-77). Each
line is given as the list of its whitespace-separated fields, the result of
`line.strip().split(None, 4)`. On a line with fewer than four fields the
source raises an uncaught exception — `IndexError` at `service_split[0]` for
an empty line, `TypeError` at `check_service(*service_split[1:4])` with
fewer than three arguments otherwise — aborting the whole run: modelled as
`none`. -/
def bucketize (critical_services : List String) :
    List (List String) → Option (List (Nat × String) × List (Nat × String))
  | [] => some ([], [])
  | line :: rest =>
    match line with
    | service_name :: serv_load :: serv_active :: serv_sub :: _ =>
      match bucketize critical_services rest with
      | none => none
      | some (criticals, warnings) =>
        match bucketDecision critical_services
            (check_service serv_load serv_active serv_sub) service_name with
        | some (true, e) => some (e :: criticals, warnings)
        | some (false, e) => some (criticals, e :: warnings)
        | none => some (criticals, warnings)
    | _ => none

/-- Outcome of the adapter call `subprocess.check_output(command.split())`
(source line 58): the unit listing, a `CalledProcessError` carrying its
rendered message text (raised when the command exits non-zero; this is the
only exception the source catches, line 59), or any other exception such as
`OSError` when the command is unavailable, which the source does not catch. -/
inductive AdapterResult where
  | output : List (List String) → AdapterResult
  | calledProcessError : String → AdapterResult
  | otherError : AdapterResult

/-- Embeds `main(critical_services)` (source lines 54-90): `some (line, code)`
is the line printed to stdout and the `sys.exit` code; `none` is an uncaught
exception (the interpreter aborts with a traceback and no verdict line). -/
def runMain (adapter : AdapterResult) (critical_services : List String) :
    Option (String × Nat) :=
  match adapter with
  | .calledProcessError e => some ("UNKNOWN: " ++ e, 3)
  | .otherError => none
  | .output lines =>
    match bucketize critical_services lines with
    | none => none
    | some (criticals, warnings) =>
      let criticals := sortPairs criticals
      let warnings := sortPairs warnings
      if criticals ≠ [] then
        some ("CRITICAL: " ++ get_message (criticals ++ warnings), 2)
      else if warnings ≠ [] then
        some ("WARNING: " ++ get_message warnings, 1)
      else
        some ("OK", 0)

/-! Order lemmas for the tuple comparison used by `list.sort()`. -/

theorem strLtB_asymm : ∀ as bs : List Char,
    strLtB as bs = true → strLtB bs as = false
  | [], [] => by simp [strLtB]
  | [], _ :: _ => by simp [strLtB]
  | _ :: _, [] => by simp [strLtB]
  | a :: as, b :: bs => by
    simp only [strLtB]
    intro h
    by_cases hab : a < b
    · rw [if_neg (lt_asymm hab), if_neg (ne_of_gt hab)]
    · by_cases heq : a = b
      · subst heq
        rw [if_neg (lt_irrefl a), if_pos rfl] at h ⊢
        exact strLtB_asymm as bs h
      · rw [if_neg hab, if_neg heq] at h
        exact absurd h (by simp)

theorem strLtB_trans : ∀ as bs cs : List Char,
    strLtB as bs = true → strLtB bs cs = true → strLtB as cs = true
  | as, [], _ => by
    intro h1 _
    cases as <;> simp [strLtB] at h1
  | _, _ :: _, [] => by
    intro _ h2
    simp [strLtB] at h2
  | [], _ :: _, _ :: _ => by
    intro _ _
    simp [strLtB]
  | a :: as, b :: bs, c :: cs => by
    simp only [strLtB]
    intro h1 h2
    by_cases hab : a < b
    · by_cases hbc : b < c
      · rw [if_pos (lt_trans hab hbc)]
      · by_cases hbc2 : b = c
        · subst hbc2
          rw [if_pos hab]
        · rw [if_neg hbc, if_neg hbc2] at h2
          exact absurd h2 (by simp)
    · by_cases hab2 : a = b
      · subst hab2
        rw [if_neg (lt_irrefl a), if_pos rfl] at h1
        by_cases hbc : a < c
        · rw [if_pos hbc]
        · by_cases hbc2 : a = c
          · subst hbc2
            rw [if_neg (lt_irrefl a), if_pos rfl] at h2 ⊢
            exact strLtB_trans as bs cs h1 h2
          · rw [if_neg hbc, if_neg hbc2] at h2
            exact absurd h2 (by simp)
      · rw [if_neg hab, if_neg hab2] at h1
        exact absurd h1 (by simp)

theorem strLtB_connex : ∀ as bs : List Char,
    strLtB as bs = false → strLtB bs as = false → as = bs
  | [], [] => by intro _ _; rfl
  | [], _ :: _ => by simp [strLtB]
  | _ :: _, [] => by simp [strLtB]
  | a :: as, b :: bs => by
    simp only [strLtB]
    intro h1 h2
    by_cases hab : a < b
    · rw [if_pos hab] at h1
      exact absurd h1 (by simp)
    · by_cases hba : b < a
      · rw [if_pos hba] at h2
        exact absurd h2 (by simp)
      · have heq : a = b := le_antisymm (not_lt.mp hba) (not_lt.mp hab)
        subst heq
        rw [if_neg (lt_irrefl a), if_pos rfl] at h1 h2
        rw [strLtB_connex as bs h1 h2]

theorem strLtB_le_trans {as bs cs : List Char} (h1 : strLtB bs as = false)
    (h2 : strLtB cs bs = false) : strLtB cs as = false := by
  cases hca : strLtB cs as with
  | false => rfl
  | true =>
    exfalso
    cases hab : strLtB as bs with
    | true =>
      cases hbc : strLtB bs cs with
      | true =>
        have h3 := strLtB_asymm as cs (strLtB_trans as bs cs hab hbc)
        rw [h3] at hca
        exact Bool.false_ne_true hca
      | false =>
        have heq : bs = cs := strLtB_connex bs cs hbc h2
        subst heq
        rw [h1] at hca
        exact Bool.false_ne_true hca
    | false =>
      have heq : as = bs := strLtB_connex as bs hab h1
      subst heq
      rw [h2] at hca
      exact Bool.false_ne_true hca

/-- Unfolded characterisation of the tuple order. -/
theorem pairR_iff (x y : Nat × String) :
    pairR x y ↔ x.1 < y.1 ∨ (x.1 = y.1 ∧ strLtB y.2.data x.2.data = false) := by
  simp [pairR, pairLE, Bool.or_eq_true, Bool.and_eq_true, decide_eq_true_iff,
    Bool.not_eq_true']

instance : IsTotal (Nat × String) pairR := by
  constructor
  intro x y
  rcases Nat.lt_trichotomy x.1 y.1 with h | h | h
  · exact Or.inl ((pairR_iff x y).mpr (Or.inl h))
  · by_cases hs : strLtB y.2.data x.2.data = true
    · exact Or.inr ((pairR_iff y x).mpr (Or.inr ⟨h.symm, strLtB_asymm _ _ hs⟩))
    · exact Or.inl ((pairR_iff x y).mpr (Or.inr ⟨h, by simpa using hs⟩))
  · exact Or.inr ((pairR_iff y x).mpr (Or.inl h))

instance : IsTrans (Nat × String) pairR := by
  constructor
  intro x y z hxy hyz
  rw [pairR_iff] at hxy hyz ⊢
  rcases hxy with h1 | ⟨h1, h1s⟩
  · rcases hyz with h2 | ⟨h2, _⟩
    · exact Or.inl (lt_trans h1 h2)
    · exact Or.inl (h2 ▸ h1)
  · rcases hyz with h2 | ⟨h2, h2s⟩
    · exact Or.inl (h1 ▸ h2)
    · exact Or.inr ⟨h1.trans h2, strLtB_le_trans h1s h2s⟩

theorem sortPairs_sorted (l : List (Nat × String)) :
    List.Sorted pairR (sortPairs l) :=
  List.sorted_insertionSort pairR l

theorem sortPairs_perm (l : List (Nat × String)) : (sortPairs l).Perm l :=
  List.perm_insertionSort pairR l

theorem sortPairs_eq_nil {l : List (Nat × String)} :
    sortPairs l = [] ↔ l = [] := by
  constructor
  · intro h
    have := (sortPairs_perm l).length_eq
    rw [h] at this
    exact List.length_eq_zero.mp this.symm
  · intro h
    subst h
    rfl

/-- Helper: a listing containing a line with fewer than four fields makes
the classification loop abort. -/
theorem bucketize_none_of_short (cs : List String) :
    ∀ lines : List (List String), (∃ l ∈ lines, l.length < 4) →
      bucketize cs lines = none
  | [], h => by simp at h
  | line :: rest, h => by
    rcases h with ⟨l, hl, hlen⟩
    rcases List.mem_cons.mp hl with rfl | hmem
    · rcases l with _ | ⟨a, _ | ⟨b, _ | ⟨c, _ | ⟨d, t⟩⟩⟩⟩
      · rfl
      · rfl
      · rfl
      · rfl
      · simp only [List.length_cons] at hlen
        omega
    · have ih := bucketize_none_of_short cs rest ⟨l, hmem, hlen⟩
      rcases line with _ | ⟨a, _ | ⟨b, _ | ⟨c, _ | ⟨d, t⟩⟩⟩⟩ <;>
        simp [bucketize, ih]

/-- C10: on the empty unit listing both buckets are empty and the program
prints exactly `OK` with exit code 0, whatever the critical-name set. -/
theorem empty_listing_ok (critical_services : List String) :
    bucketize critical_services [] = some ([], []) ∧
      runMain (AdapterResult.output []) critical_services = some ("OK", 0) :=
  ⟨rfl, rfl⟩

/-- C7 amended: only a `CalledProcessError` — the listing command exiting
non-zero — is caught; then the program prints `UNKNOWN: ` followed by the
error text and exits 3 without reaching classifier or aggregator. Any other
adapter failure (command unavailable, I/O error) is not caught and
propagates to the process boundary, producing no verdict line at all. -/
theorem adapter_error_handling (e : String) (critical_services : List String) :
    runMain (AdapterResult.calledProcessError e) critical_services =
        some ("UNKNOWN: " ++ e, 3) ∧
      runMain AdapterResult.otherError critical_services = none :=
  ⟨rfl, rfl⟩

/-- C7 counterexample: an adapter failure that is not a `CalledProcessError`
— for example `OSError` when the listing command is unavailable — is not
caught by `except subprocess.CalledProcessError`: the run aborts with a
traceback and never prints an `UNKNOWN: ` line or exits with code 3. -/
theorem adapter_unavailable_uncaught :
    runMain AdapterResult.otherError ["db"] = none :=
  rfl

/-- C6 amended: a listing containing a malformed record (fewer than four
fields: `service_split[0]` or `check_service(*service_split[1:4])` fails) is
indeed not silently skipped and not classified by guessing, but the run
terminates with an uncaught `IndexError`/`TypeError` — no verdict line and
no exit code in 0..3 — rather than with the `UNKNOWN` verdict and exit
code 3. -/
theorem malformed_line_aborts (critical_services : List String)
    (lines : List (List String)) (h : ∃ l ∈ lines, l.length < 4) :
    runMain (AdapterResult.output lines) critical_services = none := by
  have hb := bucketize_none_of_short critical_services lines h
  simp [runMain, hb]

/-- Witness for C6 amended at a concrete input: a well-formed line followed
by the two-field line `b loaded` aborts the whole run. -/
theorem malformed_line_aborts_witness :
    runMain (AdapterResult.output
        [["a", "loaded", "active", "running"], ["b", "loaded"]]) [] = none :=
  malformed_line_aborts [] _ ⟨["b", "loaded"], by simp, by simp⟩

/-- C6 counterexample: on the listing consisting of the single one-field
line `foo` the run produces no verdict at all (uncaught `TypeError`), in
particular not the `UNKNOWN` verdict with exit code 3 that the claim
states. -/
theorem malformed_line_not_unknown :
    runMain (AdapterResult.output [["foo"]]) [] = none :=
  rfl

/-- Helper: dropping a non-critical `Dead` record from the listing leaves
both buckets unchanged. -/
theorem bucketize_drop_dead (cs : List String) (name load active sub : String)
    (rest : List String) (hname : name ∉ cs)
    (hdead : check_service load active sub = some Problem.dead) :
    ∀ pre post : List (List String),
      bucketize cs (pre ++ (name :: load :: active :: sub :: rest) :: post) =
        bucketize cs (pre ++ post)
  | [], post => by
    cases hb : bucketize cs post with
    | none => simp [bucketize, hb]
    | some cw =>
      simp only [List.nil_append, bucketize, hb, hdead, bucketDecision,
        if_neg hname]
      simp [Problem.dead]
  | line :: pre, post => by
    have ih := bucketize_drop_dead cs name load active sub rest hname hdead pre post
    rcases line with _ | ⟨a, _ | ⟨b, _ | ⟨c, _ | ⟨d, t⟩⟩⟩⟩ <;>
      simp [bucketize, ih]

/-- C2: the aggregator buckets one classified unit exactly per the spec
rule — critical and `Failed` goes to CRITICALS, critical with any other
category goes to WARNINGS, non-critical with a category other than `Dead`
goes to WARNINGS — and a non-critical unit classified `Dead` is dropped
entirely: removing its record from the listing leaves both buckets, and
hence the printed message, unchanged. -/
theorem bucket_rule (cs : List String) (p : Nat) (name : String) :
    (name ∈ cs → p = Problem.failed →
      bucketDecision cs (some p) name = some (true, p, name)) ∧
    (name ∈ cs → p ≠ Problem.failed →
      bucketDecision cs (some p) name = some (false, p, name)) ∧
    (name ∉ cs → p ≠ Problem.dead →
      bucketDecision cs (some p) name = some (false, p, name)) ∧
    (name ∉ cs → p = Problem.dead →
      bucketDecision cs (some p) name = none) ∧
    (∀ load active sub : String, ∀ rest : List String,
      ∀ pre post : List (List String),
      name ∉ cs → check_service load active sub = some Problem.dead →
      bucketize cs (pre ++ (name :: load :: active :: sub :: rest) :: post) =
        bucketize cs (pre ++ post)) := by
  refine ⟨?_, ?_, ?_, ?_, ?_⟩
  · intro hmem hp
    simp [bucketDecision, hmem, hp]
  · intro hmem hp
    simp [bucketDecision, hmem, hp]
  · intro hmem hp
    simp [bucketDecision, hmem, hp]
  · intro hmem hp
    simp [bucketDecision, hmem, hp]
  · intro load active sub rest pre post hmem hdead
    exact bucketize_drop_dead cs name load active sub rest hmem hdead pre post

/-- Witness for C2 at concrete inputs: the critical failed unit `db` goes to
CRITICALS, and dropping the non-critical dead unit `cron` from a listing
leaves the buckets unchanged. -/
theorem bucket_rule_witness :
    bucketDecision ["db"] (some Problem.failed) "db" =
        some (true, Problem.failed, "db") ∧
      bucketize [] ([] ++ ["cron", "loaded", "active", "dead"] :: []) =
        bucketize [] ([] ++ []) :=
  ⟨(bucket_rule ["db"] Problem.failed "db").1 (by simp) rfl,
    (bucket_rule [] Problem.dead "cron").2.2.2.2 "loaded" "active" "dead" []
      [] [] (by simp) rfl⟩

/-- C4: after classification, a non-empty CRITICALS bucket prints
`CRITICAL: ` with the message built from CRITICALS then WARNINGS and exits
2; otherwise a non-empty WARNINGS bucket prints `WARNING: ` with its
message and exits 1; otherwise the program prints `OK` with no message body
and exits 0 — and on every normally terminating run the printed status word
matches the exit-code mapping OK=0, WARNING=1, CRITICAL=2, UNKNOWN=3. -/
theorem verdict_mapping (adapter : AdapterResult) (cs : List String) :
    (∀ lines criticals warnings, adapter = AdapterResult.output lines →
      bucketize cs lines = some (criticals, warnings) →
      (criticals ≠ [] →
        runMain adapter cs = some
          ("CRITICAL: " ++ get_message (sortPairs criticals ++ sortPairs warnings), 2)) ∧
      (criticals = [] → warnings ≠ [] →
        runMain adapter cs = some
          ("WARNING: " ++ get_message (sortPairs warnings), 1)) ∧
      (criticals = [] → warnings = [] →
        runMain adapter cs = some ("OK", 0))) ∧
    (∀ out code, runMain adapter cs = some (out, code) →
      (code = 0 ∧ out = "OK") ∨
      (code = 1 ∧ ∃ m, out = "WARNING: " ++ m) ∨
      (code = 2 ∧ ∃ m, out = "CRITICAL: " ++ m) ∨
      (code = 3 ∧ ∃ m, out = "UNKNOWN: " ++ m)) := by
  constructor
  · intro lines criticals warnings hout hb
    subst hout
    refine ⟨?_, ?_, ?_⟩
    · intro hc
      have hc2 : sortPairs criticals ≠ [] := fun h => hc (sortPairs_eq_nil.mp h)
      simp [runMain, hb, hc2]
    · intro hc hw
      have hc2 : sortPairs criticals = [] := sortPairs_eq_nil.mpr hc
      have hw2 : sortPairs warnings ≠ [] := fun h => hw (sortPairs_eq_nil.mp h)
      simp [runMain, hb, hc2, hw2]
    · intro hc hw
      subst hc
      subst hw
      simp [runMain, hb, sortPairs]
  · intro out code hrun
    cases adapter with
    | calledProcessError e =>
      simp only [runMain, Option.some.injEq, Prod.mk.injEq] at hrun
      exact Or.inr (Or.inr (Or.inr ⟨hrun.2.symm, e, hrun.1.symm⟩))
    | otherError => simp [runMain] at hrun
    | output lines =>
      cases hb : bucketize cs lines with
      | none => simp [runMain, hb] at hrun
      | some cw =>
        obtain ⟨criticals, warnings⟩ := cw
        by_cases hc : sortPairs criticals = []
        · by_cases hw : sortPairs warnings = []
          · simp only [runMain, hb] at hrun
            rw [if_neg (fun h : sortPairs criticals ≠ [] => h hc)] at hrun
            rw [if_neg (fun h : sortPairs warnings ≠ [] => h hw)] at hrun
            cases hrun
            exact Or.inl ⟨rfl, rfl⟩
          · simp only [runMain, hb] at hrun
            rw [if_neg (fun h : sortPairs criticals ≠ [] => h hc)] at hrun
            rw [if_pos hw] at hrun
            cases hrun
            exact Or.inr (Or.inl ⟨rfl, _, rfl⟩)
        · simp only [runMain, hb] at hrun
          rw [if_pos hc] at hrun
          cases hrun
          exact Or.inr (Or.inr (Or.inl ⟨rfl, _, rfl⟩))

/-- Witness for C4 at a concrete input: one critical failed unit yields the
CRITICAL verdict with exit code 2. -/
theorem verdict_mapping_witness :
    runMain (AdapterResult.output [["db", "loaded", "failed", "failed"]]) ["db"] =
      some ("CRITICAL: " ++
        get_message (sortPairs [(Problem.failed, "db")] ++ sortPairs []), 2) :=
  ((verdict_mapping (AdapterResult.output [["db", "loaded", "failed", "failed"]])
      ["db"]).1 [["db", "loaded", "failed", "failed"]] [(Problem.failed, "db")] []
      rfl (by decide)).1 (by simp)

/-- Helper: a well-formed record of a critical service that classifies as
`failed` puts `(failed, name)` into the CRITICALS bucket. -/
theorem bucketize_criticals_mem (cs : List String) :
    ∀ (lines : List (List String)) (criticals warnings : List (Nat × String)),
      bucketize cs lines = some (criticals, warnings) →
      ∀ name load active sub : String, ∀ rest : List String,
        (name :: load :: active :: sub :: rest) ∈ lines → name ∈ cs →
        check_service load active sub = some Problem.failed →
        (Problem.failed, name) ∈ criticals
  | [], _, _, _ => by
    intro name load active sub rest hmem
    simp at hmem
  | line :: tail, criticals, warnings, hb => by
    intro name load active sub rest hmem hcs hfail
    rcases line with _ | ⟨n, _ | ⟨lo, _ | ⟨ac, _ | ⟨su, tr⟩⟩⟩⟩ <;>
      simp only [bucketize] at hb <;> try exact absurd hb (by simp)
    rcases htail : bucketize cs tail with _ | ⟨c, w⟩
    · rw [htail] at hb
      exact absurd hb (by simp)
    · rw [htail] at hb
      rcases List.mem_cons.mp hmem with heq | hmem2
      · obtain ⟨rfl, rfl, rfl, rfl, rfl⟩ :
            name = n ∧ load = lo ∧ active = ac ∧ sub = su ∧ rest = tr := by
          injection heq with h1 h2
          injection h2 with h2 h3
          injection h3 with h3 h4
          injection h4 with h4 h5
          exact ⟨h1, h2, h3, h4, h5⟩
        rw [hfail] at hb
        simp only [bucketDecision, if_pos hcs, if_pos rfl] at hb
        cases hb
        exact List.mem_cons_self _ _
      · have hc := bucketize_criticals_mem cs tail c w htail name load active sub
          rest hmem2 hcs hfail
        rcases hdec : bucketDecision cs (check_service lo ac su) n with _ | ⟨b, e⟩
        · rw [hdec] at hb
          cases hb
          exact hc
        · rw [hdec] at hb
          cases b
          · cases hb
            exact hc
          · cases hb
            exact List.mem_cons_of_mem _ hc

/-- C5: whenever some unit whose name is in the critical set classifies as
`Failed`, a run that terminates normally ends with the CRITICAL verdict and
exit code 2, regardless of what the other units in the listing produce. -/
theorem critical_failed_forces_critical (cs : List String)
    (lines : List (List String)) (criticals warnings : List (Nat × String))
    (hb : bucketize cs lines = some (criticals, warnings))
    (name load active sub : String) (rest : List String)
    (hmem : (name :: load :: active :: sub :: rest) ∈ lines)
    (hcs : name ∈ cs)
    (hfail : check_service load active sub = some Problem.failed) :
    runMain (AdapterResult.output lines) cs =
      some ("CRITICAL: " ++
        get_message (sortPairs criticals ++ sortPairs warnings), 2) := by
  have hc : (Problem.failed, name) ∈ criticals :=
    bucketize_criticals_mem cs lines criticals warnings hb
      name load active sub rest hmem hcs hfail
  have hne : criticals ≠ [] := List.ne_nil_of_mem hc
  have hne2 : sortPairs criticals ≠ [] := fun h => hne (sortPairs_eq_nil.mp h)
  simp [runMain, hb, hne2]

/-- Witness for C5 at a concrete input: critical `a` failed, non-critical
`b` dead — the verdict is CRITICAL with exit code 2. -/
theorem critical_failed_forces_critical_witness :
    runMain (AdapterResult.output
        [["a", "loaded", "failed", "failed"], ["b", "loaded", "active", "dead"]])
        ["a"] =
      some ("CRITICAL: " ++
        get_message (sortPairs [(Problem.failed, "a")] ++ sortPairs []), 2) :=
  critical_failed_forces_critical ["a"]
    [["a", "loaded", "failed", "failed"], ["b", "loaded", "active", "dead"]]
    [(Problem.failed, "a")] [] (by decide) "a" "loaded" "failed" "failed" []
    (by simp) (by simp) rfl

/-- Spec-side concatenation of a list of words, used to phrase the grouping
rule of spec section 4.3. -/
def concatWords (l : List String) : String := l.foldr (fun a b => a ++ b) ""

/-- Helper: consecutive entries of the current category print no new label,
only their service names each followed by a space. -/
theorem getMessageAux_group (p : Nat) :
    ∀ (names : List String) (rest : List (Nat × String)),
      getMessageAux (some p) (names.map (fun s => (p, s)) ++ rest) =
        concatWords (names.map (fun s => s ++ " ")) ++ getMessageAux (some p) rest
  | [], rest => by simp [concatWords]
  | n :: names, rest => by
    simp only [List.map_cons, List.cons_append, getMessageAux, List.append_eq,
      ite_true, if_true, eq_self_iff_true]
    rw [getMessageAux_group p names rest]
    simp [concatWords, String.append_assoc]

/-- Helper: when the next entry's category differs from `last_problem`, the
remaining rendering is as if starting fresh. -/
theorem getMessageAux_of_ne (p : Nat) (rest : List (Nat × String))
    (hrest : rest = [] ∨ ∃ q s r, rest = (q, s) :: r ∧ q ≠ p) :
    getMessageAux (some p) rest = get_message rest := by
  rcases hrest with rfl | ⟨q, s, r, rfl, hq⟩
  · rfl
  · simp only [getMessageAux, get_message]
    rw [if_neg (fun h => hq (Option.some.inj h).symm),
      if_neg (fun h : (none : Option Nat) = some q => by cases h)]

/-- C8: the reporter prints, for each maximal run of consecutive
same-category entries, the category label (category name with underscores
replaced by spaces) followed by `: `, then the unit names of that group each
followed by one space, then the next group; and on the concrete listing
`[(db, loaded, failed, failed)]` with critical set `{db}` the program prints
exactly `CRITICAL: failed: db ` and exits 2. -/
theorem message_grouping (p : Nat) (names : List String)
    (rest : List (Nat × String)) (hne : names ≠ [])
    (hrest : rest = [] ∨ ∃ q s r, rest = (q, s) :: r ∧ q ≠ p) :
    get_message (names.map (fun s => (p, s)) ++ rest) =
      problem_names p ++ ": " ++ concatWords (names.map (fun s => s ++ " ")) ++
        get_message rest ∧
    runMain (AdapterResult.output [["db", "loaded", "failed", "failed"]]) ["db"] =
      some ("CRITICAL: failed: db ", 2) := by
  constructor
  · rcases names with _ | ⟨n, ns⟩
    · exact absurd rfl hne
    · simp only [List.map_cons, List.cons_append, get_message, getMessageAux,
        List.append_eq]
      rw [if_neg (fun h : (none : Option Nat) = some p => by cases h),
        getMessageAux_group p ns rest, getMessageAux_of_ne p rest hrest]
      simp [concatWords, String.append_assoc, get_message]
  · decide

/-- Witness for C8 at a concrete input: one `not loaded but not inactive`
unit named `web` renders under a single label. -/
theorem message_grouping_witness :
    get_message (["web"].map
        (fun s => ((Problem.not_loaded_but_not_inactive : Nat), s)) ++ []) =
      problem_names Problem.not_loaded_but_not_inactive ++ ": " ++
        concatWords (["web"].map (fun s => s ++ " ")) ++ get_message [] :=
  (message_grouping Problem.not_loaded_but_not_inactive ["web"] []
    (fun h => by cases h) (Or.inl rfl)).1

/-- Sequence of category labels the `get_message` loop prints: mirroring
source lines 117-121, a label is emitted exactly when the entry's problem
differs from `last_problem`. -/
def emittedLabels (last_problem : Option Nat) : List (Nat × String) → List Nat
  | [] => []
  | (problem, _) :: rest =>
    if last_problem = some problem then emittedLabels (some problem) rest
    else problem :: emittedLabels (some problem) rest

/-- Helper: a `(true, e)` bucket decision always carries the `failed`
category. -/
theorem bucketDecision_true (cs : List String) (prob : Option Nat)
    (name : String) (e : Nat × String)
    (h : bucketDecision cs prob name = some (true, e)) :
    e = (Problem.failed, name) := by
  cases prob with
  | none => cases h
  | some p =>
    by_cases hm : name ∈ cs
    · by_cases hp : p = Problem.failed
      · simp only [bucketDecision, if_pos hm, if_pos hp, Option.some.injEq,
          Prod.mk.injEq, true_and] at h
        rw [← h, hp]
      · simp [bucketDecision, hm, hp] at h
    · by_cases hp : p = Problem.dead
      · simp [bucketDecision, hm, hp] at h
      · simp [bucketDecision, hm, hp] at h

/-- Helper: every entry of the CRITICALS bucket has category `failed`. -/
theorem bucketize_criticals_failed (cs : List String) :
    ∀ (lines : List (List String)) (criticals warnings : List (Nat × String)),
      bucketize cs lines = some (criticals, warnings) →
      ∀ e ∈ criticals, e.1 = Problem.failed
  | [], criticals, warnings, hb => by
    cases hb
    simp
  | line :: tail, criticals, warnings, hb => by
    rcases line with _ | ⟨n, _ | ⟨lo, _ | ⟨ac, _ | ⟨su, tr⟩⟩⟩⟩ <;>
      simp only [bucketize] at hb <;> try exact absurd hb (by simp)
    rcases htail : bucketize cs tail with _ | ⟨c, w⟩
    · rw [htail] at hb
      exact absurd hb (by simp)
    · rw [htail] at hb
      have ih := bucketize_criticals_failed cs tail c w htail
      rcases hdec : bucketDecision cs (check_service lo ac su) n with _ | ⟨b, e0⟩
      · rw [hdec] at hb
        cases hb
        exact ih
      · rw [hdec] at hb
        cases b
        · cases hb
          exact ih
        · cases hb
          intro e he
          rcases List.mem_cons.mp he with rfl | hmem
          · rw [bucketDecision_true cs (check_service lo ac su) n e hdec]
          · exact ih e hmem

/-- Helper: the tuple order implies the category order on first
components. -/
theorem pairR_fst_le {x y : Nat × String} (h : pairR x y) : x.1 ≤ y.1 := by
  rcases (pairR_iff x y).mp h with h1 | ⟨h1, _⟩
  · exact le_of_lt h1
  · exact le_of_eq h1

/-- Helper: over a category-non-decreasing sequence the emitted labels are
strictly increasing, hence pairwise distinct. -/
theorem emittedLabels_strict :
    ∀ (l : List (Nat × String)) (last : Option Nat),
      l.Pairwise (fun x y => x.1 ≤ y.1) →
      (∀ a, last = some a → ∀ x ∈ l, a ≤ x.1) →
      (emittedLabels last l).Pairwise (· < ·) ∧
        (∀ a, last = some a → ∀ q ∈ emittedLabels last l, a < q)
  | [], _, _, _ => ⟨List.Pairwise.nil, by simp [emittedLabels]⟩
  | (p, s) :: rest, last, hpw, hbound => by
    have hhead : ∀ y ∈ rest, p ≤ y.1 := (List.pairwise_cons.mp hpw).1
    have hrest := (List.pairwise_cons.mp hpw).2
    have ih := emittedLabels_strict rest (some p) hrest
      (fun a ha x hx => by rw [← Option.some.inj ha]; exact hhead x hx)
    by_cases hlast : last = some p
    · simp only [emittedLabels, if_pos hlast]
      refine ⟨ih.1, ?_⟩
      intro a ha q hq
      have hap : a = p := by
        rw [hlast] at ha
        exact (Option.some.inj ha).symm
      rw [hap]
      exact ih.2 p rfl q hq
    · simp only [emittedLabels, if_neg hlast]
      constructor
      · exact List.pairwise_cons.mpr ⟨fun q hq => ih.2 p rfl q hq, ih.1⟩
      · intro a ha q hq
        have h1 : a ≤ p := hbound a ha (p, s) (List.mem_cons_self _ _)
        rcases List.mem_cons.mp hq with rfl | hq2
        · exact lt_of_le_of_ne h1 (fun h => hlast (by rw [ha, h]))
        · exact lt_of_le_of_lt h1 (ih.2 p rfl q hq2)

/-- C9: every entry of the CRITICALS bucket has category `Failed`, the most
severe category; hence the concatenation of the sorted CRITICALS and the
sorted WARNINGS passed to the reporter in the CRITICAL case is globally
non-decreasing in category, and the labels the reporter emits over it are
pairwise distinct — each category label appears at most once in the printed
message. -/
theorem criticals_all_failed (cs : List String) (lines : List (List String))
    (criticals warnings : List (Nat × String))
    (hb : bucketize cs lines = some (criticals, warnings)) :
    (∀ e ∈ criticals, e.1 = Problem.failed) ∧
      ((sortPairs criticals ++ sortPairs warnings).map Prod.fst).Pairwise (· ≤ ·) ∧
      (emittedLabels none (sortPairs criticals ++ sortPairs warnings)).Nodup := by
  have hall := bucketize_criticals_failed cs lines criticals warnings hb
  have hallS : ∀ e ∈ sortPairs criticals, e.1 = Problem.failed :=
    fun e he => hall e ((sortPairs_perm criticals).subset he)
  have hpc : (sortPairs criticals).Pairwise (fun x y => x.1 ≤ y.1) :=
    (sortPairs_sorted criticals).imp pairR_fst_le
  have hpw : (sortPairs warnings).Pairwise (fun x y => x.1 ≤ y.1) :=
    (sortPairs_sorted warnings).imp pairR_fst_le
  have hconcat :
      (sortPairs criticals ++ sortPairs warnings).Pairwise (fun x y => x.1 ≤ y.1) :=
    List.pairwise_append.mpr ⟨hpc, hpw, fun x hx y _ => by
      rw [hallS x hx]
      exact Nat.zero_le _⟩
  refine ⟨hall, ?_, ?_⟩
  · exact List.pairwise_map.mpr hconcat
  · exact (emittedLabels_strict _ none hconcat (by simp)).1.imp
      (fun hlt => ne_of_lt hlt)

/-- Witness for C9 at a concrete input: critical failed `db` plus
non-critical `not loaded but not inactive` unit `web`. -/
theorem criticals_all_failed_witness :
    (∀ e ∈ [((Problem.failed : Nat), ("db" : String))], e.1 = Problem.failed) ∧
      ((sortPairs [(Problem.failed, "db")] ++
          sortPairs [(Problem.not_loaded_but_not_inactive, "web")]).map
        Prod.fst).Pairwise (· ≤ ·) ∧
      (emittedLabels none (sortPairs [(Problem.failed, "db")] ++
          sortPairs [(Problem.not_loaded_but_not_inactive, "web")])).Nodup :=
  criticals_all_failed ["db"]
    [["db", "loaded", "failed", "failed"], ["web", "nf", "active", "running"]]
    [(Problem.failed, "db")] [(Problem.not_loaded_but_not_inactive, "web")]
    (by decide)

/-- C3 counterexample: the units `b` then `a`, both classified
`not loaded but not inactive` and neither critical, enter WARNINGS in
encounter order `b, a`; `warnings.sort()` compares the whole
`(problem, service_name)` tuples and yields `a, b` — same category, yet not
the original encounter order the claim requires — so the message lists
`a b`, not `b a`. -/
theorem ties_not_encounter_order :
    bucketize [] [["b", "nf", "active", "running"], ["a", "nf", "active", "running"]] =
      some ([], [(Problem.not_loaded_but_not_inactive, "b"),
        (Problem.not_loaded_but_not_inactive, "a")]) ∧
      sortPairs [(Problem.not_loaded_but_not_inactive, "b"),
          (Problem.not_loaded_but_not_inactive, "a")] =
        [(Problem.not_loaded_but_not_inactive, "a"),
          (Problem.not_loaded_but_not_inactive, "b")] ∧
      sortPairs [(Problem.not_loaded_but_not_inactive, "b"),
          (Problem.not_loaded_but_not_inactive, "a")] ≠
        [(Problem.not_loaded_but_not_inactive, "b"),
          (Problem.not_loaded_but_not_inactive, "a")] ∧
      runMain (AdapterResult.output
          [["b", "nf", "active", "running"], ["a", "nf", "active", "running"]]) [] =
        some ("WARNING: not loaded but not inactive: a b ", 1) :=
  ⟨by decide, by decide, by decide, by decide⟩

/-- C3 amended: within each bucket entries are ordered by the fixed category
precedence, but two entries with the same category are ordered by unit name
(Python's `list.sort()` compares the whole `(problem, service_name)` tuple),
not by original encounter order; each sorted bucket is a permutation of the
bucket as encountered. -/
theorem buckets_sorted (cs : List String) (lines : List (List String))
    (criticals warnings : List (Nat × String))
    (_hb : bucketize cs lines = some (criticals, warnings)) :
    List.Sorted pairR (sortPairs criticals) ∧
      List.Sorted pairR (sortPairs warnings) ∧
      (sortPairs criticals).Perm criticals ∧
      (sortPairs warnings).Perm warnings ∧
      (∀ x y : Nat × String, pairR x y ↔
        x.1 < y.1 ∨ (x.1 = y.1 ∧ strLtB y.2.data x.2.data = false)) :=
  ⟨sortPairs_sorted criticals, sortPairs_sorted warnings,
    sortPairs_perm criticals, sortPairs_perm warnings, pairR_iff⟩

/-- Witness for C3 amended at a concrete input. -/
theorem buckets_sorted_witness :
    List.Sorted pairR (sortPairs []) ∧
      List.Sorted pairR (sortPairs [(Problem.not_loaded_but_not_inactive, "b"),
        (Problem.not_loaded_but_not_inactive, "a")]) ∧
      (sortPairs []).Perm [] ∧
      (sortPairs [(Problem.not_loaded_but_not_inactive, "b"),
          (Problem.not_loaded_but_not_inactive, "a")]).Perm
        [(Problem.not_loaded_but_not_inactive, "b"),
          (Problem.not_loaded_but_not_inactive, "a")] ∧
      (∀ x y : Nat × String, pairR x y ↔
        x.1 < y.1 ∨ (x.1 = y.1 ∧ strLtB y.2.data x.2.data = false)) :=
  buckets_sorted []
    [["b", "nf", "active", "running"], ["a", "nf", "active", "running"]] []
    [(Problem.not_loaded_but_not_inactive, "b"),
      (Problem.not_loaded_but_not_inactive, "a")]
    (by decide)

end CheckSystemd
